import Mathlib

/-!
Shallow embedding of the live-plot core of `mercurygui` (`mercurygui/main.py`):
the rolling sample buffer, window selector, downsampler, axis-bounds
computation and redraw-strategy chooser, together with the over-temperature
cutoff.  Timestamps, temperatures and fractions are modelled as rationals;
numpy arrays are modelled as `List ℚ`.
-/

namespace Mercurygui

/-- Python `l[-n:]`: the suffix of the last `n` elements (the whole list when
it is shorter than `n`).  Used by `update_plot_data` with `n = 86400`. -/
def lastN (n : Nat) (l : List α) : List α := l.drop (l.length - n)

/-- Helper for the strided slice: `k` counts the elements still to skip
before the next one is kept; after keeping an element, `s - 1` more are
skipped. -/
def everyNthAux (s : Nat) : Nat → List α → List α
  | _, [] => []
  | k, a :: rest =>
    if k = 0 then a :: everyNthAux s (s - 1) rest else everyNthAux s (k - 1) rest

/-- numpy strided slice `l[::s]` for `s ≥ 1`: every `s`-th element starting
from the first. -/
def everyNth (s : Nat) (l : List α) : List α := everyNthAux s 0 l

/-- numpy boolean-mask indexing `l[mask]`: keep the elements whose mask
entry is `true`. -/
def applyMask : List Bool → List α → List α
  | b :: bs, a :: rest => if b then a :: applyMask bs rest else applyMask bs rest
  | _, _ => []

/-- Python `max(l)` / numpy `.max()` on a non-empty list (0 on `[]`, where the
Python original raises). -/
def listMax : List ℚ → ℚ
  | [] => 0
  | a :: rest => rest.foldl max a

/-- numpy `.min()` on a non-empty list (0 on `[]`, where the original
raises). -/
def listMin : List ℚ → ℚ
  | [] => 0
  | a :: rest => rest.foldl min a

/-- Embedding of `np.interp(x, xp, fp)`: piecewise-linear interpolation with constant
extrapolation outside `xp`.  `MercuryPlotCanvas.update_plot` only ever calls
it with the one-element slices `CurrentXData[0:1]`, `CurrentYDataT[0:1]`. -/
def npInterp (x : ℚ) (xp fp : List ℚ) : ℚ :=
  match xp, fp with
  | [], _ => 0
  | _, [] => 0
  | [_], y0 :: _ => y0
  | _ :: _ :: _, [_] => 0
  | x0 :: x1 :: xs, y0 :: y1 :: ys =>
    if x ≤ x0 then y0
    else if x ≤ x1 then y0 + (y1 - y0) * (x - x0) / (x1 - x0)
    else npInterp x (x1 :: xs) (y1 :: ys)

/-- The downsampler, `MercuryPlotCanvas` lines 110-111:
`int(max([len(x_data)/dpts, 1]))`,
then stride-slice.  For `len ≥ 0` this equals `max(len // m, 1)`. -/
def downsample (l : List α) (m : Nat) : List α :=
  everyNth (max (l.length / m) 1) l

namespace MercuryPlotCanvas

/-- Source: `self.x_pad = 0.7/100` (`__init__`, line 81). -/
def x_pad : ℚ := 0.7/100

/-- Source: `self.dpts = 1000  # maximum number of data points to plot` (line 97). -/
def dpts : Nat := 1000

/-- The axis limits cached on the canvas between renders
(`self.xLim`, `self.yLim`). -/
structure CanvasState where
  xLim : ℚ × ℚ
  yLim : ℚ × ℚ
deriving DecidableEq, Repr

/-- Canvas state after `__init__` (lines 82-83):
`xLim = [-1 - x_pad, 0 + x_pad]`, `yLim = [0, 300]`. -/
def canvasInit : CanvasState :=
  { xLim := (-1 - x_pad, 0 + x_pad), yLim := (0, 300) }

/-- Whether a render redraws only the artists (`draw_artist`/`update`) or the
whole canvas with new axis limits (`axis`/`draw`), lines 148-167. -/
inductive RedrawKind
  | incremental
  | full
deriving DecidableEq, Repr

/-- One render's outcome: the redraw decision, the state cached for the next
render (lines 170-171), the temperature line data (`line_t.set_data`,
line 134) and the two refilled regions (lines 139-146). -/
structure CanvasResult where
  kind : RedrawKind
  state : CanvasState
  lineX : List ℚ
  lineYT : List ℚ
  fillG : List ℚ
  fillH : List ℚ
deriving DecidableEq, Repr

/-- Python list concatenation `xLim + yLim` used in the comparison on
line 148. -/
def limsList (x y : ℚ × ℚ) : List ℚ := [x.1, x.2, y.1, y.2]

/-- Lines 126-127: `x_pad_abs = max(x_pad * abs(x_min), 1/10000)`;
`xLimNew = [x_min - x_pad_abs, x_pad_abs]` (right edge `0 + x_pad_abs`). -/
def newXLim (x_min : ℚ) : ℚ × ℚ :=
  (x_min - max (x_pad * |x_min|) (1/10000), max (x_pad * |x_min|) (1/10000))

/-- Lines 129-130: `yLimNew = [floor(min) - 2.2, ceil(max) + 3.2]` over the
plotted temperature data. -/
def newYLim (cyt : List ℚ) : ℚ × ℚ :=
  ((Int.floor (listMin cyt) : ℚ) - 2.2, (Int.ceil (listMax cyt) : ℚ) + 3.2)

/-- Lines 110-111: `step_size = int(max([x_data.shape[0]/self.dpts, 1]))`.
With true division followed by `int` truncation this is `max(len // dpts, 1)`. -/
def step_size (x_data : List ℚ) : Nat := max (x_data.length / dpts) 1

/-- Embedding of `MercuryPlotCanvas.update_plot` (lines 107-171).  `none` models a raised
exception: `CurrentXData[0]` on line 119 raises `IndexError` when the data is
empty (so the `else` fallback on lines 131-132 is unreachable), and
`CurrentYDataT.min()` on line 129 raises `ValueError` on an empty series. -/
def update_plot (st : CanvasState) (x_data y_data_t y_data_g y_data_h : List ℚ)
    (x_min : ℚ) : Option CanvasResult :=
  let cx := everyNth (step_size x_data) x_data
  let cyt := everyNth (step_size x_data) y_data_t
  let cyg := everyNth (step_size x_data) y_data_g
  let cyh := everyNth (step_size x_data) y_data_h
  match cx, cyt with
  | [], _ => none
  | _ :: _, [] => none
  | x0 :: xrest, y0 :: yrest =>
    -- lines 119-122: `CurrentXData[0] = x_min` happens before the slice
    -- `CurrentXData[0:1]` is taken for `np.interp`
    let cx2 := if x0 < x_min then x_min :: xrest else x0 :: xrest
    let cyt2 := if x0 < x_min
      then npInterp x_min (cx2.take 1) ((y0 :: yrest).take 1) :: yrest
      else y0 :: yrest
    let xLimNew := newXLim x_min
    let yLimNew := newYLim cyt2
    let kind := if limsList xLimNew yLimNew = limsList st.xLim st.yLim
      then RedrawKind.incremental else RedrawKind.full
    some { kind := kind, state := { xLim := xLimNew, yLim := yLimNew },
           lineX := cx2, lineYT := cyt2, fillG := cyg, fillH := cyh }

end MercuryPlotCanvas

namespace MercuryMonitorApp

open MercuryPlotCanvas

/-- One batch of instrument readings, restricted to the fields this core
consumes (`readings['Temp']`, `readings['FlowPercent']`,
`readings['HeaterPercent']`). -/
structure Readings where
  Temp : ℚ
  FlowPercent : ℚ
  HeaterPercent : ℚ
deriving DecidableEq, Repr

/-- The plot data vectors held on the application
(`self.xData`, `self.xDataZeroMin`, `self.yDataT/G/H`, lines 224-228). -/
structure AppData where
  xData : List ℚ
  xDataZeroMin : List ℚ
  yDataT : List ℚ
  yDataG : List ℚ
  yDataH : List ℚ
deriving DecidableEq, Repr

/-- Initial empty data vectors (lines 224-228). -/
def appInit : AppData := ⟨[], [], [], [], []⟩

/-- Line 456: `(xData - max(xData)) / 60` — timestamps as minutes before the
newest sample. -/
def zeroMinutes (xData : List ℚ) : List ℚ :=
  xData.map (fun t => (t - listMax xData) / 60)

/-- Embedding of `update_plot_data` (lines 441-456) without the final re-render: append the
new reading, cut each vector to its last 86400 entries, and recompute
`xDataZeroMin`.  `tNow` stands for `time.time()`. -/
def update_plot_data (d : AppData) (tNow : ℚ) (r : Readings) : AppData :=
  let xData := lastN 86400 (d.xData ++ [tNow])
  { xData := xData
    xDataZeroMin := zeroMinutes xData
    yDataT := lastN 86400 (d.yDataT ++ [r.Temp])
    yDataG := lastN 86400 (d.yDataG ++ [r.FlowPercent / 100])
    yDataH := lastN 86400 (d.yDataH ++ [r.HeaterPercent / 100]) }

/-- Lines 464-468: boolean mask `xDataZeroMin >= -slider` applied to all four
vectors. -/
def selectData (d : AppData) (sliderValue : ℚ) :
    List ℚ × List ℚ × List ℚ × List ℚ :=
  let x_slice := d.xDataZeroMin.map (fun v => decide (v ≥ -sliderValue))
  (applyMask x_slice d.xDataZeroMin, applyMask x_slice d.yDataT,
   applyMask x_slice d.yDataG, applyMask x_slice d.yDataH)

/-- Embedding of `MercuryMonitorApp.update_plot` (lines 460-476).  When the selection is
empty the local `x_min` is never assigned (lines 471-472), so the call on
line 475-476 raises `UnboundLocalError` — modelled as `none`. -/
def update_plot (d : AppData) (sliderValue : ℚ) (st : CanvasState) :
    Option CanvasResult :=
  match (selectData d sliderValue).1 with
  | [] => none
  | x0 :: xrest =>
    MercuryPlotCanvas.update_plot st (x0 :: xrest)
      (selectData d sliderValue).2.1 (selectData d sliderValue).2.2.1
      (selectData d sliderValue).2.2.2 (max (-sliderValue) x0)

/-- The heater control state written through `self.feed.control`
(`heater_auto`, `heater`). -/
structure HeaterControl where
  heater_auto : String
  heater : ℚ
deriving DecidableEq, Repr

/-- Embedding of `_check_overheat` (lines 599-604): on `Temp > 310`, switch the heater to
manual (`heater_auto = 'OFF'`) and set its power to 0. -/
def check_overheat (r : Readings) (c : HeaterControl) : HeaterControl :=
  if r.Temp > 310 then { heater_auto := "OFF", heater := 0 } else c

end MercuryMonitorApp

/-! ### Lemmas about `lastN` (the `[-86400:]` suffix) -/

theorem length_lastN_le (n : Nat) (l : List α) : (lastN n l).length ≤ n := by
  simp only [lastN, List.length_drop]
  omega

theorem lastN_of_le {n : Nat} {l : List α} (h : l.length ≤ n) : lastN n l = l := by
  have h0 : l.length - n = 0 := by omega
  simp [lastN, h0]

theorem lastN_eq_reverse (n : Nat) (l : List α) :
    lastN n l = (l.reverse.take n).reverse := by
  unfold lastN
  rcases le_or_lt n l.length with h | h
  · rw [← List.reverse_reverse (l.drop (l.length - n)), List.reverse_drop]
    have h1 : l.length - (l.length - n) = n := by omega
    rw [h1]
  · have h0 : l.length - n = 0 := by omega
    rw [h0, List.drop_zero, List.take_of_length_le (by simpa using le_of_lt h),
      List.reverse_reverse]

theorem take_append_take (n : Nat) (a b : List α) :
    (a ++ b.take n).take n = (a ++ b).take n := by
  rw [List.take_append_eq_append_take, List.take_append_eq_append_take, List.take_take]
  have h : min (n - a.length) n = n - a.length := by omega
  rw [h]

theorem lastN_lastN_append (n : Nat) (xs ys : List α) :
    lastN n (lastN n xs ++ ys) = lastN n (xs ++ ys) := by
  rw [lastN_eq_reverse n xs, lastN_eq_reverse, lastN_eq_reverse,
    List.reverse_append, List.reverse_append, List.reverse_reverse,
    take_append_take]

/-! ### Lemmas about `everyNth` (the `[::step]` slice) -/

theorem length_everyNthAux {s : Nat} (hs : 1 ≤ s) :
    ∀ (l : List α) (k : Nat), (everyNthAux s k l).length = (l.length - k + s - 1) / s := by
  intro l
  induction l with
  | nil =>
    intro k
    simp only [everyNthAux, List.length_nil]
    exact (Nat.div_eq_of_lt (by omega)).symm
  | cons a rest ih =>
    intro k
    by_cases hk : k = 0
    · subst hk
      have e1 : everyNthAux s 0 (a :: rest) = a :: everyNthAux s (s - 1) rest := by
        simp [everyNthAux]
      rw [e1]
      simp only [List.length_cons, ih (s - 1)]
      have h1 : rest.length + 1 - 0 + s - 1 = rest.length + s := by omega
      rw [h1, Nat.add_div_right _ (by omega : 0 < s)]
      congr 1
      rcases le_or_lt (s - 1) rest.length with h | h
      · have h2 : rest.length - (s - 1) + s - 1 = rest.length := by omega
        rw [h2]
      · have h2 : rest.length - (s - 1) = 0 := by omega
        rw [h2, Nat.div_eq_of_lt (by omega), Nat.div_eq_of_lt (by omega)]
    · have e1 : everyNthAux s k (a :: rest) = everyNthAux s (k - 1) rest := by
        simp [everyNthAux, hk]
      rw [e1, ih (k - 1)]
      simp only [List.length_cons]
      congr 1
      omega

theorem length_everyNth {s : Nat} (hs : 1 ≤ s) (l : List α) :
    (everyNth s l).length = (l.length + s - 1) / s := by
  have h := length_everyNthAux hs l 0
  simpa [everyNth] using h

theorem everyNth_one (l : List α) : everyNth 1 l = l := by
  unfold everyNth
  induction l with
  | nil => rfl
  | cons a rest ih => simpa [everyNthAux] using ih

theorem add_le_mul_add_one {a b : Nat} (ha : 1 ≤ a) (hb : 1 ≤ b) :
    a + b ≤ a * b + 1 := by
  obtain ⟨a1, rfl⟩ := Nat.exists_eq_add_of_le ha
  obtain ⟨b1, rfl⟩ := Nat.exists_eq_add_of_le hb
  have hexp : (1 + a1) * (1 + b1) = 1 + a1 + b1 + a1 * b1 := by ring
  rw [hexp]
  linarith [Nat.zero_le (a1 * b1)]

/-- Bound used both by the corrected downsampler claim and by idempotence:
the floor-based stride keeps fewer than `2 * m` elements. -/
theorem length_downsample_le (l : List α) {m : Nat} (hm : 1 ≤ m) :
    (downsample l m).length ≤ 2 * m - 1 := by
  unfold downsample
  rcases Nat.eq_zero_or_pos (l.length / m) with hq | hq
  · rw [hq]
    have h1 : max 0 1 = 1 := rfl
    rw [h1, everyNth_one]
    have hlt : l.length < m := (Nat.div_eq_zero_iff (by omega)).1 hq
    omega
  · rw [max_eq_left hq, length_everyNth hq]
    have hmod := Nat.div_add_mod l.length m
    have hrm : l.length % m < m := Nat.mod_lt _ (by omega)
    have hkey : m + l.length / m ≤ m * (l.length / m) + 1 := add_le_mul_add_one hm hq
    have hle : l.length + l.length / m ≤ 2 * (m * (l.length / m)) := by linarith
    have hlt2 : l.length + l.length / m - 1 < 2 * (m * (l.length / m)) :=
      lt_of_lt_of_le (Nat.sub_lt (by omega) (by omega)) hle
    have hdiv : (l.length + l.length / m - 1) / (l.length / m) < 2 * m := by
      rw [Nat.div_lt_iff_lt_mul hq]
      calc l.length + l.length / m - 1 < 2 * (m * (l.length / m)) := hlt2
        _ = 2 * m * (l.length / m) := by ring
    exact Nat.le_pred_of_lt hdiv

/-! ### Lemmas about `listMax` and `applyMask` -/

theorem le_foldl_max (l : List ℚ) : ∀ a : ℚ, a ≤ l.foldl max a := by
  induction l with
  | nil => intro a; simp
  | cons b rest ih =>
    intro a
    calc a ≤ max a b := le_max_left a b
      _ ≤ rest.foldl max (max a b) := ih (max a b)

theorem mem_le_foldl_max {x : ℚ} {l : List ℚ} (hx : x ∈ l) :
    ∀ a : ℚ, x ≤ l.foldl max a := by
  induction l with
  | nil => cases hx
  | cons b rest ih =>
    intro a
    rcases List.mem_cons.1 hx with h | h
    · subst h
      calc x ≤ max a x := le_max_right a x
        _ ≤ rest.foldl max (max a x) := le_foldl_max rest (max a x)
    · exact ih h (max a b)

theorem foldl_max_mem (l : List ℚ) : ∀ a : ℚ, l.foldl max a ∈ a :: l := by
  induction l with
  | nil => intro a; simp
  | cons b rest ih =>
    intro a
    have h := ih (max a b)
    rcases List.mem_cons.1 h with h1 | h1
    · rcases max_choice a b with h2 | h2
      · exact List.mem_cons.2 (Or.inl (h1.trans h2))
      · exact List.mem_cons.2 (Or.inr (List.mem_cons.2 (Or.inl (h1.trans h2))))
    · exact List.mem_cons.2 (Or.inr (List.mem_cons.2 (Or.inr h1)))

theorem listMax_mem {l : List ℚ} (h : l ≠ []) : listMax l ∈ l := by
  cases l with
  | nil => exact absurd rfl h
  | cons a rest =>
    simpa [listMax] using foldl_max_mem rest a

theorem le_listMax {x : ℚ} {l : List ℚ} (hx : x ∈ l) : x ≤ listMax l := by
  cases l with
  | nil => cases hx
  | cons a rest =>
    rcases List.mem_cons.1 hx with h | h
    · subst h
      simpa [listMax] using le_foldl_max rest x
    · simpa [listMax] using mem_le_foldl_max h a

theorem applyMask_map_self (p : α → Bool) (l : List α) :
    applyMask (l.map p) l = l.filter p := by
  induction l with
  | nil => rfl
  | cons a rest ih =>
    by_cases h : p a <;> simp [applyMask, List.filter, h, ih]

/-! ### The fold of `update_plot_data` over a run of readings (claim C1) -/

namespace MercuryMonitorApp

/-- The buffer state after the app has processed a whole run of readings,
each arriving at its own `time.time()` value. -/
def runReadings (rs : List (ℚ × Readings)) : AppData :=
  rs.foldl (fun d p => update_plot_data d p.1 p.2) appInit

theorem runReadings_go (rs : List (ℚ × Readings)) :
    ∀ d : AppData, d.xData.length ≤ 86400 → d.yDataT.length ≤ 86400 →
      d.yDataG.length ≤ 86400 → d.yDataH.length ≤ 86400 →
      (rs.foldl (fun d p => update_plot_data d p.1 p.2) d).xData
          = lastN 86400 (d.xData ++ rs.map Prod.fst) ∧
        (rs.foldl (fun d p => update_plot_data d p.1 p.2) d).yDataT
          = lastN 86400 (d.yDataT ++ rs.map (fun p => p.2.Temp)) ∧
        (rs.foldl (fun d p => update_plot_data d p.1 p.2) d).yDataG
          = lastN 86400 (d.yDataG ++ rs.map (fun p => p.2.FlowPercent / 100)) ∧
        (rs.foldl (fun d p => update_plot_data d p.1 p.2) d).yDataH
          = lastN 86400 (d.yDataH ++ rs.map (fun p => p.2.HeaterPercent / 100)) := by
  induction rs with
  | nil =>
    intro d h1 h2 h3 h4
    simp [lastN_of_le, h1, h2, h3, h4]
  | cons p rest ih =>
    intro d h1 h2 h3 h4
    have hfx : (update_plot_data d p.1 p.2).xData = lastN 86400 (d.xData ++ [p.1]) := by
      simp [update_plot_data]
    have hft : (update_plot_data d p.1 p.2).yDataT
        = lastN 86400 (d.yDataT ++ [p.2.Temp]) := by
      simp [update_plot_data]
    have hfg : (update_plot_data d p.1 p.2).yDataG
        = lastN 86400 (d.yDataG ++ [p.2.FlowPercent / 100]) := by
      simp [update_plot_data]
    have hfh : (update_plot_data d p.1 p.2).yDataH
        = lastN 86400 (d.yDataH ++ [p.2.HeaterPercent / 100]) := by
      simp [update_plot_data]
    obtain ⟨hx, ht, hg, hh⟩ := ih (update_plot_data d p.1 p.2)
      (by rw [hfx]; exact length_lastN_le _ _) (by rw [hft]; exact length_lastN_le _ _)
      (by rw [hfg]; exact length_lastN_le _ _) (by rw [hfh]; exact length_lastN_le _ _)
    simp only [List.foldl_cons, List.map_cons]
    refine ⟨?_, ?_, ?_, ?_⟩
    · rw [hx, hfx, lastN_lastN_append, List.append_assoc, List.singleton_append]
    · rw [ht, hft, lastN_lastN_append, List.append_assoc, List.singleton_append]
    · rw [hg, hfg, lastN_lastN_append, List.append_assoc, List.singleton_append]
    · rw [hh, hfh, lastN_lastN_append, List.append_assoc, List.singleton_append]

end MercuryMonitorApp

/-! ### The canvas render on non-empty data -/

theorem everyNth_cons (s : Nat) (c : α) (l : List α) :
    everyNth s (c :: l) = c :: everyNthAux s (s - 1) l := by
  simp [everyNth, everyNthAux]

namespace MercuryPlotCanvas

/-- Full characterisation of `MercuryPlotCanvas.update_plot` on non-empty
input: the clamp branch rewrites only the first x value, the interpolation
over the one-element slices returns the first temperature unchanged, and the
new limits are cached whichever redraw is chosen. -/
theorem update_plot_cons (st : CanvasState) (a : ℚ) (xtl : List ℚ) (b : ℚ)
    (ytl yg yh : List ℚ) (xm : ℚ) :
    update_plot st (a :: xtl) (b :: ytl) yg yh xm =
      some { kind := if limsList (newXLim xm)
                  (newYLim (everyNth (step_size (a :: xtl)) (b :: ytl)))
                = limsList st.xLim st.yLim
              then RedrawKind.incremental else RedrawKind.full,
             state := { xLim := newXLim xm,
                        yLim := newYLim (everyNth (step_size (a :: xtl)) (b :: ytl)) },
             lineX := if a < xm
               then xm :: (everyNth (step_size (a :: xtl)) (a :: xtl)).tail
               else everyNth (step_size (a :: xtl)) (a :: xtl),
             lineYT := everyNth (step_size (a :: xtl)) (b :: ytl),
             fillG := everyNth (step_size (a :: xtl)) yg,
             fillH := everyNth (step_size (a :: xtl)) yh } := by
  rw [update_plot]
  rw [everyNth_cons (step_size (a :: xtl)) a xtl, everyNth_cons (step_size (a :: xtl)) b ytl]
  by_cases h : a < xm <;>
    simp [h, npInterp, everyNth_cons]

end MercuryPlotCanvas

namespace MercuryMonitorApp

open MercuryPlotCanvas

/-- On a non-empty selection, `MercuryMonitorApp.update_plot` hands the four
selected series to the canvas together with
`x_min = max(-slider, CurrentXData[0])` (line 472). -/
theorem update_plot_selected (d : AppData) (L : ℚ) (st : CanvasState)
    (x0 : ℚ) (xr : List ℚ) (hsel : (selectData d L).1 = x0 :: xr) :
    update_plot d L st
      = MercuryPlotCanvas.update_plot st (x0 :: xr) (selectData d L).2.1
          (selectData d L).2.2.1 (selectData d L).2.2.2 (max (-L) x0) := by
  unfold update_plot
  rw [hsel]

end MercuryMonitorApp

/-! ### Demonstration inputs used by concrete claims -/

namespace MercuryMonitorApp

/-- Buffer after readings at epoch seconds 700, 880, 970, 1000 with
temperatures 10, 20, 30, 40: relative minutes `[-5, -2, -1/2, 0]`. -/
def boundaryDemo : AppData :=
  update_plot_data (update_plot_data (update_plot_data (update_plot_data appInit
    700 ⟨10, 0, 0⟩) 880 ⟨20, 0, 0⟩) 970 ⟨30, 0, 0⟩) 1000 ⟨40, 0, 0⟩

/-- Buffer after readings at epoch seconds 700 and 1000: relative minutes
`[-5, 0]`, so a 5-minute window is filled exactly. -/
def lookbackDemo : AppData :=
  update_plot_data (update_plot_data appInit 700 ⟨295, 0, 0⟩) 1000 ⟨296, 0, 0⟩

end MercuryMonitorApp

theorem length_lastN (n : Nat) (l : List α) :
    (lastN n l).length = l.length - (l.length - n) := by
  simp [lastN]

/-! ### Claim theorems -/

open MercuryPlotCanvas MercuryMonitorApp

/-- C1: for every sequence of appended readings, after each append the sample
buffer (`xData`, `yDataT`, `yDataG`, `yDataH`) has length at most 86400, the
four arrays have equal length, and the retained samples are exactly the most
recent ones in arrival order (the last-86400 suffix of everything appended so
far, oldest dropped first). -/
theorem c1_buffer_bounded_fifo (rs : List (ℚ × Readings)) :
    (runReadings rs).xData.length ≤ 86400 ∧
    (runReadings rs).xData.length = (runReadings rs).yDataT.length ∧
    (runReadings rs).xData.length = (runReadings rs).yDataG.length ∧
    (runReadings rs).xData.length = (runReadings rs).yDataH.length ∧
    (runReadings rs).xData = lastN 86400 (rs.map Prod.fst) ∧
    (runReadings rs).yDataT = lastN 86400 (rs.map (fun p => p.2.Temp)) ∧
    (runReadings rs).yDataG = lastN 86400 (rs.map (fun p => p.2.FlowPercent / 100)) ∧
    (runReadings rs).yDataH = lastN 86400 (rs.map (fun p => p.2.HeaterPercent / 100)) := by
  obtain ⟨hx, ht, hg, hh⟩ := runReadings_go rs appInit
    (by simp [appInit]) (by simp [appInit]) (by simp [appInit]) (by simp [appInit])
  have hx' : (runReadings rs).xData = lastN 86400 (rs.map Prod.fst) := by
    rw [runReadings, hx]; simp [appInit]
  have ht' : (runReadings rs).yDataT = lastN 86400 (rs.map (fun p => p.2.Temp)) := by
    rw [runReadings, ht]; simp [appInit]
  have hg' : (runReadings rs).yDataG
      = lastN 86400 (rs.map (fun p => p.2.FlowPercent / 100)) := by
    rw [runReadings, hg]; simp [appInit]
  have hh' : (runReadings rs).yDataH
      = lastN 86400 (rs.map (fun p => p.2.HeaterPercent / 100)) := by
    rw [runReadings, hh]; simp [appInit]
  refine ⟨?_, ?_, ?_, ?_, hx', ht', hg', hh'⟩
  · rw [hx']; exact length_lastN_le _ _
  · rw [hx', ht', length_lastN, length_lastN]; simp
  · rw [hx', hg', length_lastN, length_lastN]; simp
  · rw [hx', hh', length_lastN, length_lastN]; simp

/-- C2 (code bug): rendering with an empty buffer raises instead of falling
back to the default bounds.  With zero samples the selection is empty, the
local `x_min` on line 472 is never assigned, and the call on lines 475-476
raises `UnboundLocalError` (modelled as `none`); the default bounds
`x = [-1.007, 0.007]`, `y = [0, 300]` exist as the initial cached limits and
as the unreachable `else` fallback of lines 131-132. -/
theorem c2_empty_buffer_render_raises :
    (∀ (L : ℚ) (st : CanvasState), MercuryMonitorApp.update_plot appInit L st = none) ∧
    canvasInit.xLim = (-(1007 / 1000), 7 / 1000) ∧ canvasInit.yLim = (0, 300) := by
  refine ⟨fun L st => rfl, ?_, rfl⟩
  norm_num [canvasInit, x_pad, Prod.ext_iff]

/-- C3 counterexample: the downsampler's output can exceed `maxPoints` — the
3-element series with `maxPoints = 2` keeps all 3 points (stride
`max(3 // 2, 1) = 1`). -/
theorem c3_counterexample :
    ¬ ((downsample ([0, 1, 2] : List ℚ) 2).length ≤ 2) := by
  norm_num [downsample, everyNth, everyNthAux]

/-- C3 (amended): for every input series and every positive `maxPoints`, the
downsampler's output contains at most `2 * maxPoints - 1` elements (the
floor-based stride keeps up to just under twice the target when the length is
not a multiple of `maxPoints`; the claimed `≤ maxPoints` bound fails). -/
theorem c3_downsample_bounded (l : List α) {m : Nat} (hm : 0 < m) :
    (downsample l m).length ≤ 2 * m - 1 :=
  length_downsample_le l hm

/-- Witness for C3 (amended) at a concrete input. -/
theorem c3_downsample_bounded_witness :
    (downsample ([0, 1, 2] : List ℚ) 2).length ≤ 2 * 2 - 1 :=
  c3_downsample_bounded ([0, 1, 2] : List ℚ) (by norm_num)

/-- C7: the downsampler's stride is `max(len // maxPoints, 1)` taking every
stride-th element from the first: any 2000-element series at
`maxPoints = 500` is reduced at stride 4 to exactly `ceil(2000/4) = 500`
points, and downsampling is idempotent at the same `maxPoints`. -/
theorem c7_downsample_determinism :
    (∀ l : List ℚ, l.length = 2000 →
      downsample l 500 = everyNth 4 l ∧ (downsample l 500).length = 500) ∧
    (∀ (l : List ℚ) (m : Nat), 1 ≤ m →
      downsample (downsample l m) m = downsample l m) := by
  constructor
  · intro l hl
    have hst : max (l.length / 500) 1 = 4 := by rw [hl]; omega
    constructor
    · rw [downsample, hst]
    · rw [downsample, hst, length_everyNth (by norm_num), hl]
  · intro l m hm
    have hlen : (downsample l m).length < 2 * m :=
      lt_of_le_of_lt (length_downsample_le l hm) (by omega)
    have hdiv : (downsample l m).length / m ≤ 1 := by
      have h2 : (downsample l m).length / m < 2 := Nat.div_lt_of_lt_mul (by omega)
      omega
    show everyNth (max ((downsample l m).length / m) 1) (downsample l m) = downsample l m
    rw [max_eq_right hdiv, everyNth_one]

/-- Witness for C7 at concrete inputs. -/
theorem c7_downsample_determinism_witness :
    downsample (List.replicate 2000 (0 : ℚ)) 500 = everyNth 4 (List.replicate 2000 (0 : ℚ)) ∧
    (downsample (List.replicate 2000 (0 : ℚ)) 500).length = 500 ∧
    downsample (downsample ([0, 1, 2] : List ℚ) 2) 2 = downsample ([0, 1, 2] : List ℚ) 2 :=
  ⟨(c7_downsample_determinism.1 _ (by rw [List.length_replicate])).1,
   (c7_downsample_determinism.1 _ (by rw [List.length_replicate])).2,
   c7_downsample_determinism.2 [0, 1, 2] 2 (by norm_num)⟩

/-- C4: for a non-empty buffer the window selector maps each timestamp `t` to
`(t - maxTimestamp)/60` — the newest sample sits at minute 0 and every value
is non-positive — and selects exactly the samples whose relative minute is
`≥ -lookBackMinutes`; for timestamps `[t-300, t-120, t-30, t]` with
`lookBackMinutes = 1` exactly the samples at `t-30` and `t` are selected. -/
theorem c4_window_selector :
    (∀ (xs : List ℚ) (L : ℚ), xs ≠ [] →
      (∀ v ∈ zeroMinutes xs, v ≤ 0) ∧
      (0 : ℚ) ∈ zeroMinutes xs ∧
      applyMask ((zeroMinutes xs).map (fun v => decide (v ≥ -L))) (zeroMinutes xs)
        = (zeroMinutes xs).filter (fun v => decide (v ≥ -L))) ∧
    (∀ t ya yb yc yd : ℚ,
      selectData { xData := [t - 300, t - 120, t - 30, t],
                   xDataZeroMin := zeroMinutes [t - 300, t - 120, t - 30, t],
                   yDataT := [ya, yb, yc, yd],
                   yDataG := [0, 0, 0, 0], yDataH := [0, 0, 0, 0] } 1
        = ([-(1 / 2), 0], [yc, yd], [0, 0], [0, 0])) := by
  constructor
  · intro xs L hne
    refine ⟨?_, ?_, applyMask_map_self _ _⟩
    · intro v hv
      obtain ⟨t, ht, rfl⟩ := List.mem_map.1 hv
      have h1 : t ≤ listMax xs := le_listMax ht
      rw [div_nonpos_iff]
      right
      constructor <;> linarith
    · refine List.mem_map.2 ⟨listMax xs, listMax_mem hne, ?_⟩
      simp
  · intro t ya yb yc yd
    have hmax : listMax [t - 300, t - 120, t - 30, t] = t := by
      show List.foldl max (t - 300) [t - 120, t - 30, t] = t
      simp only [List.foldl_cons, List.foldl_nil]
      rw [max_eq_right (show (t : ℚ) - 300 ≤ t - 120 by linarith),
        max_eq_right (show (t : ℚ) - 120 ≤ t - 30 by linarith),
        max_eq_right (show (t : ℚ) - 30 ≤ t by linarith)]
    have hzm : zeroMinutes [t - 300, t - 120, t - 30, t] = [-5, -2, -(1 / 2), 0] := by
      rw [zeroMinutes, hmax]
      simp only [List.map_cons, List.map_nil, List.cons.injEq, and_true]
      norm_num
    rw [selectData]
    simp only [hzm]
    norm_num [applyMask]

/-- Witness for C4 at a concrete input. -/
theorem c4_window_selector_witness :
    (∀ v ∈ zeroMinutes [(3 : ℚ)], v ≤ 0) ∧
    (0 : ℚ) ∈ zeroMinutes [(3 : ℚ)] ∧
    applyMask ((zeroMinutes [(3 : ℚ)]).map (fun v => decide (v ≥ -(1 : ℚ))))
        (zeroMinutes [(3 : ℚ)])
      = (zeroMinutes [(3 : ℚ)]).filter (fun v => decide (v ≥ -(1 : ℚ))) :=
  c4_window_selector.1 [(3 : ℚ)] 1 (by simp)

/-- C5: a render chooses the incremental redraw exactly when the newly
computed bounds coincide in all four components with the cached bounds, and
on either path the cache is replaced by the new bounds. -/
theorem c5_redraw_strategy (st : CanvasState) (a : ℚ) (xtl : List ℚ) (b : ℚ)
    (ytl yg yh : List ℚ) (xm : ℚ) (r : CanvasResult)
    (h : MercuryPlotCanvas.update_plot st (a :: xtl) (b :: ytl) yg yh xm = some r) :
    (r.kind = RedrawKind.incremental ↔
      (r.state.xLim.1 = st.xLim.1 ∧ r.state.xLim.2 = st.xLim.2 ∧
       r.state.yLim.1 = st.yLim.1 ∧ r.state.yLim.2 = st.yLim.2)) ∧
    r.state.xLim = newXLim xm ∧
    r.state.yLim = newYLim (everyNth (step_size (a :: xtl)) (b :: ytl)) := by
  rw [update_plot_cons, Option.some.injEq] at h
  subst h
  refine ⟨?_, rfl, rfl⟩
  by_cases hc : limsList (newXLim xm) (newYLim (everyNth (step_size (a :: xtl)) (b :: ytl)))
      = limsList st.xLim st.yLim
  · rw [if_pos hc]
    simp only [limsList, List.cons.injEq, and_true] at hc
    simp [hc]
  · rw [if_neg hc]
    simp only [limsList, List.cons.injEq, and_true] at hc
    constructor
    · intro hk
      exact absurd hk (by simp)
    · intro hcomp
      simp only at hcomp
      exact absurd ⟨hcomp.1, hcomp.2.1, hcomp.2.2.1, hcomp.2.2.2⟩ hc

/-- C9: on a non-empty render the new y-axis bounds come from the visible
(downsampled) temperature series as `floor(min) - 2.2` and
`ceil(max) + 3.2`. -/
theorem c9_yaxis_bounds (st : CanvasState) (a : ℚ) (xtl : List ℚ) (b : ℚ)
    (ytl yg yh : List ℚ) (xm : ℚ) (r : CanvasResult)
    (h : MercuryPlotCanvas.update_plot st (a :: xtl) (b :: ytl) yg yh xm = some r) :
    r.state.yLim
      = ((Int.floor (listMin (everyNth (step_size (a :: xtl)) (b :: ytl))) : ℚ) - 2.2,
         (Int.ceil (listMax (everyNth (step_size (a :: xtl)) (b :: ytl))) : ℚ) + 3.2) := by
  rw [update_plot_cons, Option.some.injEq] at h
  subst h
  rfl

/-- C10: a reading with `Temp > 310` switches the heater to manual control
(`heater_auto = 'OFF'`) with power 0; a reading with `Temp ≤ 310` leaves the
heater control state unchanged by this check. -/
theorem c10_overheat_cutoff (r : Readings) (c : HeaterControl) :
    (r.Temp > 310 → check_overheat r c = { heater_auto := "OFF", heater := 0 }) ∧
    (r.Temp ≤ 310 → check_overheat r c = c) := by
  constructor
  · intro h
    rw [check_overheat, if_pos h]
  · intro h
    rw [check_overheat, if_neg (not_lt.2 h)]

/-- Witness for C10 at concrete readings. -/
theorem c10_overheat_cutoff_witness :
    check_overheat ⟨311, 0, 0⟩ ⟨"ON", 5⟩ = { heater_auto := "OFF", heater := 0 } ∧
    check_overheat ⟨300, 0, 0⟩ ⟨"ON", 5⟩ = ⟨"ON", 5⟩ :=
  ⟨(c10_overheat_cutoff ⟨311, 0, 0⟩ ⟨"ON", 5⟩).1 (by norm_num),
   (c10_overheat_cutoff ⟨300, 0, 0⟩ ⟨"ON", 5⟩).2 (by norm_num)⟩

/-- The render of the single sample `(x, T) = (0, 295)` from the initial
canvas state, used as a concrete witness input. -/
def singleRenderResult : CanvasResult :=
  { kind := RedrawKind.full,
    state := { xLim := (-(1 / 10000), 1 / 10000), yLim := (1464 / 5, 1491 / 5) },
    lineX := [0], lineYT := [295], fillG := [0], fillH := [0] }

theorem singleRender_eq :
    MercuryPlotCanvas.update_plot canvasInit [0] [295] [0] [0] 0
      = some singleRenderResult := by
  norm_num [MercuryPlotCanvas.update_plot, step_size, everyNth, everyNthAux, dpts,
    newXLim, newYLim, limsList, listMin, listMax, x_pad, canvasInit, npInterp,
    max_def, abs, singleRenderResult]

/-- Witness for C5 at a concrete render. -/
theorem c5_redraw_strategy_witness :
    (singleRenderResult.kind = RedrawKind.incremental ↔
      (singleRenderResult.state.xLim.1 = canvasInit.xLim.1 ∧
       singleRenderResult.state.xLim.2 = canvasInit.xLim.2 ∧
       singleRenderResult.state.yLim.1 = canvasInit.yLim.1 ∧
       singleRenderResult.state.yLim.2 = canvasInit.yLim.2)) ∧
    singleRenderResult.state.xLim = newXLim 0 ∧
    singleRenderResult.state.yLim = newYLim (everyNth (step_size [0]) [295]) :=
  c5_redraw_strategy canvasInit 0 [] 295 [] [0] [0] 0 singleRenderResult singleRender_eq

/-- Witness for C9 at a concrete render. -/
theorem c9_yaxis_bounds_witness :
    singleRenderResult.state.yLim
      = ((Int.floor (listMin (everyNth (step_size [0]) [295])) : ℚ) - 2.2,
         (Int.ceil (listMax (everyNth (step_size [0]) [295])) : ℚ) + 3.2) :=
  c9_yaxis_bounds canvasInit 0 [] 295 [] [0] [0] 0 singleRenderResult singleRender_eq

/-- C8 (amended): on a non-empty render the x bounds are
`[leftEdge - padding, 0 + padding]` with
`leftEdge = max(-lookBackMinutes, earliestVisibleRelativeMinute)` and
`padding = max(0.007 * |leftEdge|, 0.0001)`; for a visible range with left
edge `-5.0` the padding equals `max(0.007 * 5.0, 0.0001) = 0.035` (not the
claimed `0.035049`). -/
theorem c8_xaxis_bounds :
    (∀ (d : AppData) (L : ℚ) (st : CanvasState) (x0 : ℚ) (xr : List ℚ),
      (selectData d L).1 = x0 :: xr →
      MercuryMonitorApp.update_plot d L st
        = MercuryPlotCanvas.update_plot st (x0 :: xr) (selectData d L).2.1
            (selectData d L).2.2.1 (selectData d L).2.2.2 (max (-L) x0)) ∧
    (∀ (st : CanvasState) (a : ℚ) (xtl : List ℚ) (b : ℚ) (ytl yg yh : List ℚ)
      (xm : ℚ) (r : CanvasResult),
      MercuryPlotCanvas.update_plot st (a :: xtl) (b :: ytl) yg yh xm = some r →
      r.state.xLim = (xm - max (x_pad * |xm|) (1 / 10000), max (x_pad * |xm|) (1 / 10000))) ∧
    x_pad = 7 / 1000 ∧
    max (x_pad * |(-5 : ℚ)|) (1 / 10000) = 35 / 1000 := by
  refine ⟨update_plot_selected, ?_, by norm_num [x_pad], ?_⟩
  · intro st a xtl b ytl yg yh xm r h
    rw [update_plot_cons, Option.some.injEq] at h
    subst h
    rfl
  · norm_num [x_pad, max_def, abs]

/-- Witness for C8 (amended) at a concrete render: the 5-minute window over
`lookbackDemo` selects both samples, renders with `x_min = max(-5, -5) = -5`,
and pads by exactly `0.035`. -/
theorem c8_xaxis_bounds_witness :
    MercuryMonitorApp.update_plot lookbackDemo 5 canvasInit
      = MercuryPlotCanvas.update_plot canvasInit [-5, 0] (selectData lookbackDemo 5).2.1
          (selectData lookbackDemo 5).2.2.1 (selectData lookbackDemo 5).2.2.2
          (max (-(5 : ℚ)) (-5)) ∧
    max (x_pad * |(-5 : ℚ)|) (1 / 10000) = 35 / 1000 := by
  refine ⟨c8_xaxis_bounds.1 lookbackDemo 5 canvasInit (-5) [0] ?_, c8_xaxis_bounds.2.2.2⟩
  norm_num [selectData, lookbackDemo, update_plot_data, appInit, lastN, zeroMinutes,
    listMax, applyMask]

/-- C8 counterexample: for a render whose visible left edge is `-5.0`, the
code's padding is `0.007 * 5.0 = 0.035`, not the claimed
`max(0.007 * 5.007, 0.0001) = 0.035049`; the cached x bounds become
`[-5.035, 0.035]`. -/
theorem c8_padding_counterexample :
    (MercuryMonitorApp.update_plot lookbackDemo 5 canvasInit).map
        (fun r => r.state.xLim) = some (-5 - 35 / 1000, 35 / 1000) ∧
    (35 / 1000 : ℚ) ≠ 35049 / 1000000 := by
  constructor
  · norm_num [MercuryMonitorApp.update_plot, lookbackDemo, update_plot_data, appInit,
      lastN, zeroMinutes, listMax, selectData, applyMask, MercuryPlotCanvas.update_plot,
      step_size, everyNth, everyNthAux, dpts, newXLim, newYLim, limsList, listMin,
      x_pad, canvasInit, npInterp, max_def, abs]
  · norm_num

/-- C6 (code bug): with relative minutes `[-5, -2, -1/2, 0]` and a 1-minute
window — the window's left boundary `-1` falls between two samples — the
first plotted x value is `-1/2` (the earliest selected sample), not the
boundary `-1`: `x_min = max(-L, CurrentXData[0])` always equals
`CurrentXData[0]` because every selected sample satisfies `>= -L`, so the
clamp/interpolation branch of lines 119-122 never runs, and the first
temperature stays the raw sample value `30`. -/
theorem c6_no_left_edge_clamp :
    (MercuryMonitorApp.update_plot boundaryDemo 1 canvasInit).map
        (fun r => (r.lineX, r.lineYT)) = some ([-(1 / 2), 0], [30, 40]) ∧
    ((-(1 / 2) : ℚ) ≠ -1) := by
  constructor
  · norm_num [MercuryMonitorApp.update_plot, boundaryDemo, update_plot_data, appInit,
      lastN, zeroMinutes, listMax, selectData, applyMask, MercuryPlotCanvas.update_plot,
      step_size, everyNth, everyNthAux, dpts, newXLim, newYLim, limsList, listMin,
      x_pad, canvasInit, npInterp, max_def, abs]
  · norm_num

end Mercurygui
